import Mathlib

/-!
Verification of the export/serialization layer of the `wrapper` repository
(Go package `services`, file `export.go`): the four render functions
`ToJSON`, `ToCSV`, `ToMarkdownTable`, `ToSQL` and their helpers
`formatValue`, `formatSQLValue`, `inferSQLType`.

The Go cell type is the open `interface{}`; following the specification's
data model (§3, §9) it is embedded as a closed tagged variant: absent/null,
string, number, boolean, and a fallback `other` carrying the value's
pre-rendered `%v` string (the only thing the renderers ever use of such a
value).  Go `float64` cells are embedded as exact rationals (`Rat`); the
integrality test `v == float64(int64(v))` of the source is the exactness
test `den = 1` on the rational, which agrees with the source on every value
in `int64` range.
-/

/-- A cell value, the closed embedding of the Go `interface{}` cell. -/
inductive Value where
  | null
  | str (s : String)
  | num (q : Rat)
  | bool (b : Bool)
  | other (s : String)
deriving DecidableEq, Repr

/-- `Value.isOther` recognises the fallback constructor. -/
def Value.isOther : Value → Bool
  | .other _ => true
  | _ => false

/-- A row: the Go `map[string]interface{}`, embedded as an association
list of key/value pairs (first binding wins, as only one can exist in a
Go map). -/
abbrev Row := List (String × Value)

/-- Go map indexing `row[field]`: a missing key yields the zero value of
`interface{}`, which is `nil`, embedded as `Value.null`. -/
def rowGet (r : Row) (f : String) : Value :=
  match r.lookup f with
  | some v => v
  | none => Value.null

/-- Smallest `k < 18` with `10 ^ k` a multiple of `d`, if any. -/
def minPow10 (d : Nat) : Option Nat :=
  (List.range 18).find? (fun k => 10 ^ k % d == 0)

/-- Left-pad a digit string with zeros to length `k`. -/
def padZeros (k : Nat) (s : String) : String :=
  String.mk (List.replicate (k - s.length) '0') ++ s

/-- Embedding of Go `fmt.Sprintf("%v", v)` on a non-integral `float64`:
the shortest fixed-notation decimal rendering.  It is exact for every
value whose decimal expansion terminates within 17 digits (every value the
claims exercise); values that Go would print in exponent notation fall to
a marked fallback that no claim relies on. -/
def fracString (q : Rat) : String :=
  match minPow10 q.den with
  | some k =>
      let m : Nat := (q.num.natAbs * 10 ^ k) / q.den
      (if q.num < 0 then "-" else "") ++
        toString (m / 10 ^ k) ++ "." ++ padZeros k (toString (m % 10 ^ k))
  | none => toString q.num ++ "/" ++ toString q.den

/-- Embedding of `formatValue` (export.go): renders a cell for the CSV and
Markdown formats.  `nil → ""`; strings verbatim; a `float64` equal to an
integer through `%d` on `int64(v)`, other `float64` through `%v`; the
default branch is `%v`, which on `bool` is `true`/`false` and on the
fallback is its stored rendering. -/
def formatValue : Value → String
  | .null => ""
  | .str s => s
  | .num q => if q.den = 1 then toString q.num else fracString q
  | .bool b => if b then "true" else "false"
  | .other s => s

/-- The single-quote character. -/
def singleQuote : Char := Char.ofNat 39

/-- `doubleChar c s` doubles every occurrence of the character `c` in `s`:
the embedding of `strings.ReplaceAll(s, c, cc)` for a one-character
pattern. -/
def doubleChar (c : Char) (s : String) : String :=
  ⟨s.data.foldr (fun d acc => if d = c then d :: d :: acc else d :: acc) []⟩

/-- Embedding of `formatSQLValue` (export.go): renders a cell for SQL
`INSERT` statements.  `nil → NULL`; strings single-quoted with each single
quote doubled; numbers as in `formatValue`; booleans as `TRUE`/`FALSE`;
the default branch wraps the `%v` rendering in single quotes. -/
def formatSQLValue : Value → String
  | .null => "NULL"
  | .str s => "'" ++ doubleChar singleQuote s ++ "'"
  | .num q => if q.den = 1 then toString q.num else fracString q
  | .bool b => if b then "TRUE" else "FALSE"
  | .other s => "'" ++ s ++ "'"

/-- Embedding of `inferSQLType` (export.go): SQL column type from one cell. -/
def inferSQLType : Value → String
  | .null => "TEXT"
  | .num _ => "NUMERIC"
  | .bool _ => "BOOLEAN"
  | .str _ => "TEXT"
  | .other _ => "TEXT"

/-! ### CSV writer (Go `encoding/csv`, default configuration)

`ToCSV` delegates quoting to `csv.Writer` with `Comma = ','` and
`UseCRLF = false`.  The writer quotes a field iff it is nonempty and
contains the comma, a double quote, `\r` or `\n`, equals `\.`, or starts
with a space character; quoting wraps the field in double quotes and
doubles each interior double quote (with `UseCRLF = false`, `\r` and `\n`
pass through unchanged).  Records are joined with `,` and terminated by
`\n`.  `goIsSpace` covers `unicode.IsSpace` on the Latin-1 range, which is
exhaustive for every input the claims exercise. -/

/-- `unicode.IsSpace` (Latin-1 range). -/
def goIsSpace (c : Char) : Bool :=
  c = ' ' || c = '\t' || c = '\n' || (c = Char.ofNat 11) || (c = Char.ofNat 12) ||
  c = '\r' || (c = Char.ofNat 0x85) || (c = Char.ofNat 0xA0)

/-- Embedding of `csv.Writer.fieldNeedsQuotes`. -/
def csvFieldNeedsQuotes (s : String) : Bool :=
  if s = "" then false
  else if s = "\\." then true
  else if s.data.any (fun c => c = ',' || c = '"' || c = '\r' || c = '\n') then true
  else goIsSpace s.front

/-- Quoted form of a CSV field: wrapped in `"`, interior `"` doubled. -/
def csvQuote (s : String) : String :=
  "\"" ++ doubleChar '"' s ++ "\""

/-- One CSV field as emitted by the writer. -/
def csvField (s : String) : String :=
  if csvFieldNeedsQuotes s then csvQuote s else s

/-- One CSV record: fields joined with `,`, terminated by `\n`. -/
def csvRecord (fields : List String) : String :=
  String.intercalate "," (fields.map csvField) ++ "\n"

/-- The cells of one CSV data row: the formatted value of every field of
`fieldNames`, in order (`values[i] = formatValue(row[field])`). -/
def csvCells (fieldNames : List String) (row : Row) : List String :=
  fieldNames.map (fun f => formatValue (rowGet row f))

/-- Embedding of `ExportService.ToCSV` (export.go): error on empty data,
otherwise the header record followed by one record per row in order. -/
def ToCSV (data : List Row) (fieldNames : List String) : Except String String :=
  match data with
  | [] => .error "no data to export"
  | _ :: _ =>
      .ok (csvRecord fieldNames ++
        String.join (data.map (fun row => csvRecord (csvCells fieldNames row))))

/-! ### Markdown table -/

/-- The Markdown header row: `| f1 | f2 | ... |` with one space of padding
around each cell, terminated by `\n`. -/
def mdHeaderRow (fieldNames : List String) : String :=
  "| " ++ String.intercalate " | " fieldNames ++ " |\n"

/-- The Markdown separator row: `|` then one `--------|` per field. -/
def mdSeparatorRow (fieldNames : List String) : String :=
  "|" ++ String.join (fieldNames.map (fun _ => "--------|")) ++ "\n"

/-- One Markdown data row: the formatted cells in field order, in the same
shape as the header row. -/
def mdDataRow (fieldNames : List String) (row : Row) : String :=
  "| " ++ String.intercalate " | "
    (fieldNames.map (fun f => formatValue (rowGet row f))) ++ " |\n"

/-- Embedding of `ExportService.ToMarkdownTable` (export.go). -/
def ToMarkdownTable (data : List Row) (fieldNames : List String) :
    Except String String :=
  match data with
  | [] => .error "no data to export"
  | _ :: _ =>
      .ok (mdHeaderRow fieldNames ++ mdSeparatorRow fieldNames ++
        String.join (data.map (mdDataRow fieldNames)))

/-! ### SQL export -/

/-- The column definitions of the `CREATE TABLE` statement: one
`  <field> <type>` line per field in order, the type inferred from the
given (first) row, a comma after every line but the last. -/
def sqlColumnDefs (firstRow : Row) (fieldNames : List String) : String :=
  String.join (fieldNames.enum.map (fun p =>
    "  " ++ p.2 ++ " " ++ inferSQLType (rowGet firstRow p.2) ++
      (if p.1 < fieldNames.length - 1 then "," else "") ++ "\n"))

/-- The leading comment block and `CREATE TABLE IF NOT EXISTS` statement. -/
def sqlCreateSection (tableName : String) (firstRow : Row)
    (fieldNames : List String) : String :=
  "-- Generated data\n" ++ "-- Table: " ++ tableName ++ "\n\n" ++
    "CREATE TABLE IF NOT EXISTS " ++ tableName ++ " (\n" ++
    sqlColumnDefs firstRow fieldNames ++ ");\n\n"

/-- One `INSERT` statement line for one row. -/
def sqlInsertLine (tableName : String) (fieldNames : List String)
    (row : Row) : String :=
  "INSERT INTO " ++ tableName ++ " (" ++ String.intercalate ", " fieldNames ++
    ") VALUES (" ++
    String.intercalate ", " (fieldNames.map (fun f => formatSQLValue (rowGet row f))) ++
    ");\n"

/-- Embedding of `ExportService.ToSQL` (export.go): error on empty data;
empty table name replaced by `mock_data`; comment block, `CREATE TABLE`
from the first row, then one `INSERT` per row in order. -/
def ToSQL (data : List Row) (fieldNames : List String) (tableName : String) :
    Except String String :=
  match data with
  | [] => .error "no data to export"
  | firstRow :: _ =>
      let tn := if tableName = "" then "mock_data" else tableName
      .ok (sqlCreateSection tn firstRow fieldNames ++
        String.join (data.map (sqlInsertLine tn fieldNames)))

/-! ### JSON export

`ToJSON` marshals `{"fields": ..., "data": ..., "count": ...}` through
`json.MarshalIndent`.  The embedding works at the level of the JSON value
the emitted bytes encode (indentation is layout only): `encoding/json`
marshals a Go map with its keys in sorted order, so the top-level object
lists `count`, `data`, `fields` in that (sorted) order and each row's keys
are sorted. -/

/-- The JSON value a marshalled byte sequence encodes. -/
inductive Json where
  | null
  | str (s : String)
  | num (q : Rat)
  | bool (b : Bool)
  | arr (xs : List Json)
  | obj (kvs : List (String × Json))

/-- Strict codepoint-order comparison of character lists; UTF-8 preserves
codepoint order, so this is the byte order Go sorts map keys by. -/
def charsLt : List Char → List Char → Bool
  | _, [] => false
  | [], _ :: _ => true
  | c :: cs, d :: ds =>
      if c.toNat < d.toNat then true
      else if d.toNat < c.toNat then false
      else charsLt cs ds

/-- Strict byte-order comparison of strings. -/
def strLt (a b : String) : Bool := charsLt a.data b.data

/-- Insert a key/value pair into a key-sorted association list. -/
def insertByKey (p : String × Value) : List (String × Value) → List (String × Value)
  | [] => [p]
  | q :: qs => if strLt p.1 q.1 then p :: q :: qs else q :: insertByKey p qs

/-- Sort a row's bindings by key, as `encoding/json` sorts map keys. -/
def sortByKey : Row → Row
  | [] => []
  | p :: ps => insertByKey p (sortByKey ps)

/-- How one cell marshals: the four core kinds map to their JSON forms; a
fallback value marshals through its stored rendering. -/
def encodeValue : Value → Json
  | .null => .null
  | .str s => .str s
  | .num q => .num q
  | .bool b => .bool b
  | .other s => .str s

/-- How one row marshals: an object listing the row's bindings with keys
in sorted order. -/
def encodeRow (r : Row) : Json :=
  .obj ((sortByKey r).map (fun p => (p.1, encodeValue p.2)))

/-- Embedding of `ExportService.ToJSON` (export.go): always succeeds (the
closed cell type has no unmarshalable values), producing the object with
members `count = len(data)`, `data` = the rows verbatim, `fields` = the
field list verbatim, keys in the sorted order `MarshalIndent` emits. -/
def ToJSON (data : List Row) (fieldNames : List String) : Except String Json :=
  .ok (.obj [("count", .num (data.length : Rat)),
             ("data", .arr (data.map encodeRow)),
             ("fields", .arr (fieldNames.map .str))])

/-- Member lookup in an encoded JSON object. -/
def jGet (j : Json) (k : String) : Option Json :=
  match j with
  | .obj kvs => kvs.lookup k
  | _ => none

/-- Parse one JSON value back into a cell, when it is a scalar. -/
def decodeValue : Json → Option Value
  | .null => some .null
  | .str s => some (.str s)
  | .num q => some (.num q)
  | .bool b => some (.bool b)
  | _ => none

/-- Parse a JSON object back into a row. -/
def decodeRow : Json → Option Row
  | .obj kvs => kvs.mapM (fun p => (decodeValue p.2).map (fun v => (p.1, v)))
  | _ => none

/-- Parse the `data` member back into a row sequence. -/
def decodeData : Json → Option (List Row)
  | .arr xs => xs.mapM decodeRow
  | _ => none

/-! ### Helper lemmas: characters of rendered integers -/

/-- Decimal digit characters are digits. -/
theorem digitChar_isDigit (m : Nat) (h : m < 10) : (Nat.digitChar m).isDigit = true := by
  interval_cases m <;> decide

/-- Every character `Nat.toDigitsCore 10` emits (beyond the accumulator) is
a digit. -/
theorem toDigitsCore_digits (fuel n : Nat) (ds : List Char)
    (hds : ∀ c ∈ ds, c.isDigit = true) :
    ∀ c ∈ Nat.toDigitsCore 10 fuel n ds, c.isDigit = true := by
  induction fuel generalizing n ds with
  | zero => simpa [Nat.toDigitsCore] using hds
  | succ fuel ih =>
    intro c hc
    simp only [Nat.toDigitsCore] at hc
    by_cases h0 : n / 10 = 0
    · rw [if_pos h0] at hc
      rcases List.mem_cons.mp hc with h | h
      · exact h ▸ digitChar_isDigit _ (Nat.mod_lt _ (by norm_num))
      · exact hds c h
    · rw [if_neg h0] at hc
      exact ih _ _ (by
        intro c' hc'
        rcases List.mem_cons.mp hc' with h | h
        · exact h ▸ digitChar_isDigit _ (Nat.mod_lt _ (by norm_num))
        · exact hds c' h) c hc

/-- Every character of `Nat.repr` is a digit. -/
theorem natRepr_digits (n : Nat) : ∀ c ∈ (Nat.repr n).data, c.isDigit = true := by
  intro c hc
  exact toDigitsCore_digits _ _ _ (by simp) c hc

/-- Every character of an `Int` rendered by `toString` (Go `%d`) is a
minus sign or a digit. -/
theorem intToString_chars (n : Int) : ∀ c ∈ (toString n).data, c = '-' ∨ c.isDigit = true := by
  cases n with
  | ofNat m =>
      intro c hc
      exact Or.inr (natRepr_digits m c hc)
  | negSucc m =>
      intro c hc
      rcases List.mem_cons.mp hc with h | h
      · exact Or.inl h
      · exact Or.inr (natRepr_digits (m+1) c h)

/-- A digit character is neither a decimal point nor a single quote. -/
theorem isDigit_ne_dot_quote (c : Char) (h : c.isDigit = true) :
    c ≠ '.' ∧ c ≠ singleQuote := by
  constructor <;> intro he <;> subst he <;> exact absurd h (by decide)

/-- An integer rendered by `toString` contains no decimal point: the
`%d` rendering of an integral numeric has no decimal point or fractional
digits. -/
theorem intToString_no_dot (n : Int) : ∀ c ∈ (toString n).data, c ≠ '.' := by
  intro c hc
  rcases intToString_chars n c hc with h | h
  · subst h; decide
  · exact (isDigit_ne_dot_quote c h).1

/-- An integer rendered by `toString` contains no single quote: the
rendering is unquoted. -/
theorem intToString_no_quote (n : Int) : ∀ c ∈ (toString n).data, c ≠ singleQuote := by
  intro c hc
  rcases intToString_chars n c hc with h | h
  · subst h; decide
  · exact (isDigit_ne_dot_quote c h).2

/-! ### Helper lemmas: characters of joined strings -/

/-- Characters of `String.intercalate.go` come from the accumulator, the
separator, or the remaining pieces. -/
theorem intercalate_go_chars (s : String) (c : Char) :
    ∀ (as : List String) (acc : String), c ∈ (String.intercalate.go acc s as).data →
      c ∈ acc.data ∨ c ∈ s.data ∨ ∃ x ∈ as, c ∈ x.data := by
  intro as
  induction as with
  | nil =>
      intro acc h
      exact Or.inl (by simpa [String.intercalate.go] using h)
  | cons a as ih =>
      intro acc h
      simp only [String.intercalate.go] at h
      rcases ih _ h with h' | h' | h'
      · rcases List.mem_append.mp h' with h'' | h''
        · rcases List.mem_append.mp h'' with h3 | h3
          · exact Or.inl h3
          · exact Or.inr (Or.inl h3)
        · exact Or.inr (Or.inr ⟨a, List.mem_cons_self a as, h''⟩)
      · exact Or.inr (Or.inl h')
      · rcases h' with ⟨x, hx, hcx⟩
        exact Or.inr (Or.inr ⟨x, List.mem_cons_of_mem a hx, hcx⟩)

/-- Characters of `String.intercalate` come from the separator or the
pieces. -/
theorem intercalate_chars (s : String) (l : List String) (c : Char)
    (h : c ∈ (String.intercalate s l).data) :
    c ∈ s.data ∨ ∃ x ∈ l, c ∈ x.data := by
  cases l with
  | nil => simp [String.intercalate] at h
  | cons a as =>
      rcases intercalate_go_chars s c as a (by simpa [String.intercalate] using h) with h' | h' | h'
      · exact Or.inr ⟨a, List.mem_cons_self a as, h'⟩
      · exact Or.inl h'
      · rcases h' with ⟨x, hx, hcx⟩
        exact Or.inr ⟨x, List.mem_cons_of_mem a hx, hcx⟩

/-! ### Helper lemmas: sorting and JSON round trip -/

/-- Inserting into a key-sorted list permutes consing. -/
theorem perm_insertByKey (p : String × Value) (l : List (String × Value)) :
    List.Perm (insertByKey p l) (p :: l) := by
  induction l with
  | nil => exact List.Perm.refl _
  | cons q qs ih =>
      simp only [insertByKey]
      by_cases h : strLt p.1 q.1
      · rw [if_pos h]
      · rw [if_neg h]
        exact (List.Perm.cons q ih).trans (List.Perm.swap p q qs)

/-- Sorting a row by key permutes its bindings. -/
theorem perm_sortByKey (r : Row) : List.Perm (sortByKey r) r := by
  induction r with
  | nil => exact List.Perm.refl _
  | cons p ps ih =>
      exact (perm_insertByKey p (sortByKey ps)).trans (List.Perm.cons p ih)

/-- Decoding inverts encoding on every non-fallback cell. -/
theorem decodeValue_encodeValue (v : Value) (h : v.isOther = false) :
    decodeValue (encodeValue v) = some v := by
  cases v with
  | other s => exact absurd h (by simp [Value.isOther])
  | null => rfl
  | str s => rfl
  | num q => rfl
  | bool b => rfl

/-- Decoding inverts encoding on a list of bindings of non-fallback cells. -/
theorem decode_encode_bindings (l : Row) (h : ∀ p ∈ l, p.2.isOther = false) :
    (l.map (fun p => (p.1, encodeValue p.2))).mapM
      (fun p => (decodeValue p.2).map (fun v => (p.1, v))) = some l := by
  induction l with
  | nil => rfl
  | cons p ps ih =>
      rw [List.map_cons, List.mapM_cons]
      rw [decodeValue_encodeValue p.2 (h p (List.mem_cons_self p ps))]
      rw [ih (fun q hq => h q (List.mem_cons_of_mem p hq))]
      rfl

/-- Decoding a marshalled row recovers its key-sorted bindings. -/
theorem decodeRow_encodeRow (r : Row) (h : ∀ p ∈ r, p.2.isOther = false) :
    decodeRow (encodeRow r) = some (sortByKey r) := by
  have hs : ∀ p ∈ sortByKey r, p.2.isOther = false :=
    fun p hp => h p ((perm_sortByKey r).mem_iff.mp hp)
  exact decode_encode_bindings (sortByKey r) hs

/-- Decoding the marshalled `data` member recovers every row key-sorted. -/
theorem decodeData_encode (rows : List Row)
    (h : ∀ r ∈ rows, ∀ p ∈ r, p.2.isOther = false) :
    decodeData (Json.arr (rows.map encodeRow)) = some (rows.map sortByKey) := by
  simp only [decodeData]
  induction rows with
  | nil => rfl
  | cons r rs ih =>
      rw [List.map_cons, List.mapM_cons]
      rw [decodeRow_encodeRow r (h r (List.mem_cons_self r rs))]
      rw [ih (fun r' hr' => h r' (List.mem_cons_of_mem r hr'))]
      rfl

/-- Each key-sorted row is a permutation of (hence, as a finite map,
structurally equal to) the original row. -/
theorem forall₂_perm_sortByKey (rows : List Row) :
    List.Forall₂ List.Perm (rows.map sortByKey) rows := by
  induction rows with
  | nil => exact List.Forall₂.nil
  | cons r rs ih => exact List.Forall₂.cons (perm_sortByKey r) ih

/-! ### Helper lemmas: rows equal as maps render equally -/

/-- Two rows are map-equivalent when every field reads back the same cell. -/
def rowEquiv (r₁ r₂ : Row) : Prop := ∀ g, rowGet r₁ g = rowGet r₂ g

/-- Prepending a null binding for a key the row lacks does not change any
lookup: the Go zero value for a missing key is already `nil`. -/
theorem rowGet_cons_null (r : Row) (f : String) (h : r.lookup f = none) :
    rowEquiv ((f, Value.null) :: r) r := by
  intro g
  simp only [rowGet, List.lookup]
  cases hg : g == f with
  | true =>
      have hgf : g = f := by simpa using hg
      subst hgf
      rw [h]
  | false => rfl

theorem csvCells_congr (F : List String) {r₁ r₂ : Row} (h : rowEquiv r₁ r₂) :
    csvCells F r₁ = csvCells F r₂ := by
  unfold csvCells
  exact List.map_congr_left (fun f _ => by rw [h f])

theorem mdDataRow_congr (F : List String) {r₁ r₂ : Row} (h : rowEquiv r₁ r₂) :
    mdDataRow F r₁ = mdDataRow F r₂ := by
  unfold mdDataRow
  rw [List.map_congr_left (fun f _ => by rw [h f])]

theorem sqlInsertLine_congr (tn : String) (F : List String) {r₁ r₂ : Row}
    (h : rowEquiv r₁ r₂) : sqlInsertLine tn F r₁ = sqlInsertLine tn F r₂ := by
  unfold sqlInsertLine
  rw [List.map_congr_left (fun f _ => by rw [h f])]

theorem sqlColumnDefs_congr (F : List String) {r₁ r₂ : Row}
    (h : rowEquiv r₁ r₂) : sqlColumnDefs r₁ F = sqlColumnDefs r₂ F := by
  unfold sqlColumnDefs
  rw [List.map_congr_left (fun p _ => by rw [h p.2])]

/-- Mapping a map-equivalence-respecting renderer over pairwise
map-equivalent row lists gives equal outputs. -/
theorem map_congr_forall₂ {g₁ g₂ : Row → String}
    (hg : ∀ r₁ r₂, rowEquiv r₁ r₂ → g₁ r₁ = g₂ r₂) :
    ∀ {d₁ d₂ : List Row}, List.Forall₂ rowEquiv d₁ d₂ → d₁.map g₁ = d₂.map g₂ := by
  intro d₁ d₂ h
  induction h with
  | nil => rfl
  | cons hr _ ih => rw [List.map_cons, List.map_cons, hg _ _ hr, ih]

/-- `ToCSV` respects map-equivalence of the rows. -/
theorem ToCSV_congr {d₁ d₂ : List Row} (F : List String)
    (h : List.Forall₂ rowEquiv d₁ d₂) : ToCSV d₁ F = ToCSV d₂ F := by
  cases h with
  | nil => rfl
  | cons hr ht =>
      simp only [ToCSV]
      rw [map_congr_forall₂ (fun r₁ r₂ hr' => by rw [csvCells_congr F hr'])
        (List.Forall₂.cons hr ht)]

/-- `ToMarkdownTable` respects map-equivalence of the rows. -/
theorem ToMarkdownTable_congr {d₁ d₂ : List Row} (F : List String)
    (h : List.Forall₂ rowEquiv d₁ d₂) : ToMarkdownTable d₁ F = ToMarkdownTable d₂ F := by
  cases h with
  | nil => rfl
  | cons hr ht =>
      simp only [ToMarkdownTable]
      rw [map_congr_forall₂ (fun r₁ r₂ hr' => mdDataRow_congr F hr')
        (List.Forall₂.cons hr ht)]

/-- `ToSQL` respects map-equivalence of the rows (the `CREATE TABLE` types
read the first row only through `rowGet`). -/
theorem ToSQL_congr {d₁ d₂ : List Row} (F : List String) (tn : String)
    (h : List.Forall₂ rowEquiv d₁ d₂) : ToSQL d₁ F tn = ToSQL d₂ F tn := by
  cases h with
  | nil => rfl
  | cons hr ht =>
      simp only [ToSQL, sqlCreateSection]
      rw [sqlColumnDefs_congr F hr,
        map_congr_forall₂ (fun r₁ r₂ hr' => sqlInsertLine_congr _ F hr')
        (List.Forall₂.cons hr ht)]

/-- Map-equivalence of row lists is reflexive. -/
theorem forall₂_rowEquiv_refl (d : List Row) : List.Forall₂ rowEquiv d d := by
  induction d with
  | nil => exact List.Forall₂.nil
  | cons r rs ih => exact List.Forall₂.cons (fun g => rfl) ih

/-! ### The claims -/

/-- C1.  For every rows sequence and field list, the structured-data
(JSON) export succeeds — also on empty `rows` — and the object its bytes
encode has a `fields` member holding the field list verbatim, a `count`
member equal to `len(rows)`, and a `data` member that parses back to a row
sequence structurally equal to `rows` (each decoded row is a permutation
of the original's bindings, i.e. the same finite map; `encoding/json`
emits a map's keys sorted).  The hypothesis restricts cells to the four
kinds of the data model (no `other` fallback), which is exactly the shape
the claim's well-formed datasets have. -/
theorem toJSON_roundtrip (rows : List Row) (fields : List String)
    (h : ∀ r ∈ rows, ∀ p ∈ r, p.2.isOther = false) :
    ∃ j, ToJSON rows fields = .ok j ∧
      jGet j "fields" = some (.arr (fields.map .str)) ∧
      jGet j "count" = some (.num (rows.length : Rat)) ∧
      ∃ d rows', jGet j "data" = some d ∧ decodeData d = some rows' ∧
        List.Forall₂ List.Perm rows' rows := by
  refine ⟨_, rfl, rfl, rfl, Json.arr (rows.map encodeRow), rows.map sortByKey, rfl, ?_, ?_⟩
  · exact decodeData_encode rows h
  · exact forall₂_perm_sortByKey rows

/-- C1 witness: the round trip at a concrete two-row dataset. -/
theorem toJSON_roundtrip_witness :
    (∀ r ∈ [[(("id" : String), Value.num 1), ("name", Value.str "John")]],
        ∀ p ∈ r, p.2.isOther = false) ∧
    (∃ j, ToJSON [[(("id" : String), Value.num 1), ("name", Value.str "John")]] ["id", "name"] = .ok j ∧
      jGet j "fields" = some (.arr (["id", "name"].map .str)) ∧
      jGet j "count" = some (.num ((1 : Nat) : Rat)) ∧
      ∃ d rows', jGet j "data" = some d ∧ decodeData d = some rows' ∧
        List.Forall₂ List.Perm rows'
          [[(("id" : String), Value.num 1), ("name", Value.str "John")]]) :=
  ⟨by decide, toJSON_roundtrip _ _ (by decide)⟩

/-- C2.  For every field list, exporting an empty rows sequence through
the CSV, Markdown, or SQL export fails with the empty-dataset error and
returns no output bytes (the error branch of the embedding carries none,
as the Go functions return `nil` bytes); the JSON export never raises
this condition — it succeeds on every input. -/
theorem emptyDataset_policy (fields : List String) (tn : String) (rows : List Row) :
    ToCSV [] fields = .error "no data to export" ∧
    ToMarkdownTable [] fields = .error "no data to export" ∧
    ToSQL [] fields tn = .error "no data to export" ∧
    ∃ j, ToJSON rows fields = .ok j :=
  ⟨rfl, rfl, rfl, _, rfl⟩

/-- C3.  For every non-empty rows sequence, the CSV export emits a first
line of the field names joined by commas, then one line per row in rows'
order, each line the formatted cell values of the fields in order joined
by commas.  The hypotheses say no cell needs the writer's quoting (none
contains a comma, quote, or line break, etc.), which is the regime the
claim describes — the writer's standard quoting (spec §4.2) otherwise
wraps such a cell.  The concrete example of the claim is the witness. -/
theorem toCSV_lines (rows : List Row) (fields : List String) (r₀ : Row) (rs : List Row)
    (hrows : rows = r₀ :: rs)
    (hf : ∀ f ∈ fields, csvFieldNeedsQuotes f = false)
    (hv : ∀ r ∈ rows, ∀ f ∈ fields, csvFieldNeedsQuotes (formatValue (rowGet r f)) = false) :
    ToCSV rows fields = .ok ((String.intercalate "," fields ++ "\n") ++
      String.join (rows.map (fun r =>
        String.intercalate ","
          (fields.map (fun f => formatValue (rowGet r f))) ++ "\n"))) := by
  subst hrows
  have hid : ∀ (l : List String), (∀ x ∈ l, csvFieldNeedsQuotes x = false) →
      l.map csvField = l := by
    intro l hl
    have hx : ∀ x ∈ l, csvField x = x := by
      intro x hx
      unfold csvField
      rw [hl x hx]
      rfl
    rw [List.map_congr_left hx, List.map_id']
  have h1 : ∀ r ∈ r₀ :: rs, csvRecord (csvCells fields r) =
      String.intercalate "," (fields.map (fun f => formatValue (rowGet r f))) ++ "\n" := by
    intro r hr
    unfold csvRecord csvCells
    rw [hid _ (by
      intro x hx
      rcases List.mem_map.mp hx with ⟨f, hfmem, hfx⟩
      exact hfx ▸ hv r hr f hfmem)]
  have h0 : csvRecord fields = String.intercalate "," fields ++ "\n" := by
    unfold csvRecord
    rw [hid fields hf]
  simp only [ToCSV]
  rw [h0, List.map_congr_left h1]

/-- C3 witness: the claim's concrete example — two rows over
`id`, `name`, `age` yield exactly the header `id,name,age` and the data
lines `1,John,30` and `2,Jane,25`, in order. -/
theorem toCSV_lines_witness :
    ToCSV [[(("id" : String), Value.num 1), ("name", Value.str "John"), ("age", Value.num 30)],
           [(("id" : String), Value.num 2), ("name", Value.str "Jane"), ("age", Value.num 25)]]
        ["id", "name", "age"] =
      .ok "id,name,age\n1,John,30\n2,Jane,25\n" := by
  have h := toCSV_lines
    [[(("id" : String), Value.num 1), ("name", Value.str "John"), ("age", Value.num 30)],
     [(("id" : String), Value.num 2), ("name", Value.str "Jane"), ("age", Value.num 25)]]
    ["id", "name", "age"]
    [(("id" : String), Value.num 1), ("name", Value.str "John"), ("age", Value.num 30)]
    [[(("id" : String), Value.num 2), ("name", Value.str "Jane"), ("age", Value.num 25)]]
    rfl (by decide) (by decide)
  exact h.trans rfl

/-- C4.  The shared value-formatting rule of the CSV and Markdown exports:
null and absent cells render as the empty string, a string verbatim, a
boolean as `true`/`false`, a mathematically integral numeric as its
integer rendering — which contains no decimal point (so `42`, never
`42.0`) — and a non-integral numeric in the default decimal form; the
no-decimal-point normalization of integral numerics holds in the SQL
export's `formatSQLValue` as well. -/
theorem formatValue_rule :
    formatValue .null = "" ∧
    (∀ r f, List.lookup f r = none → formatValue (rowGet r f) = "") ∧
    (∀ s, formatValue (.str s) = s) ∧
    (∀ b, formatValue (.bool b) = if b then "true" else "false") ∧
    (∀ q : Rat, q.den = 1 →
      formatValue (.num q) = toString q.num ∧
      (∀ c ∈ (formatValue (.num q)).data, c ≠ '.') ∧
      formatSQLValue (.num q) = toString q.num) ∧
    (∀ q : Rat, q.den ≠ 1 →
      formatValue (.num q) = fracString q ∧
      formatSQLValue (.num q) = fracString q) := by
  refine ⟨rfl, ?_, fun s => rfl, fun b => rfl, ?_, ?_⟩
  · intro r f h
    simp only [rowGet, h]
    rfl
  · intro q h
    refine ⟨?_, ?_, ?_⟩
    · simp [formatValue, h]
    · simp only [formatValue, if_pos h]
      exact intToString_no_dot q.num
    · simp [formatSQLValue, h]
  · intro q h
    exact ⟨by simp [formatValue, h], by simp [formatSQLValue, h]⟩

/-- C4 witness: the integral numeric `42` renders as `42` (not `42.0`) in
both rules, an absent cell as the empty string, and the fractional
`157/50` in decimal form. -/
theorem formatValue_rule_witness :
    ((42 : Rat).den = 1 ∧ formatValue (.num 42) = "42" ∧ formatSQLValue (.num 42) = "42") ∧
    (List.lookup "x" ([] : Row) = none ∧ formatValue (rowGet [] "x") = "") ∧
    ((mkRat 157 50).den ≠ 1 ∧ formatValue (.num (mkRat 157 50)) = "3.14") := by
  refine ⟨⟨by decide, ?_, ?_⟩, ⟨rfl, ?_⟩, ⟨by decide, ?_⟩⟩
  · exact (formatValue_rule.2.2.2.2.1 42 (by decide)).1.trans rfl
  · exact (formatValue_rule.2.2.2.2.1 42 (by decide)).2.2.trans rfl
  · exact formatValue_rule.2.1 [] "x" rfl
  · exact (formatValue_rule.2.2.2.2.2 (mkRat 157 50) (by decide)).1.trans rfl

/-- C5.  For a non-empty rows sequence, the SQL export's `CREATE TABLE IF
NOT EXISTS` statement lists the fields in order, each column's type
inferred from the first row only (the statement below mentions no row but
the first) through the mapping null → `TEXT`, numeric → `NUMERIC`,
boolean → `BOOLEAN`, string and anything else → `TEXT`; concretely, a
column whose first-row cell is null is declared `TEXT` even when a later
row holds a numeric. -/
theorem sql_create_table_types (firstRow : Row) (rest : List Row)
    (fields : List String) (tn : String) :
    inferSQLType .null = "TEXT" ∧
    (∀ q, inferSQLType (.num q) = "NUMERIC") ∧
    (∀ b, inferSQLType (.bool b) = "BOOLEAN") ∧
    (∀ s, inferSQLType (.str s) = "TEXT") ∧
    (∀ s, inferSQLType (.other s) = "TEXT") ∧
    (∀ r f, List.lookup f r = none → inferSQLType (rowGet r f) = "TEXT") ∧
    ToSQL (firstRow :: rest) fields tn =
      .ok (sqlCreateSection (if tn = "" then "mock_data" else tn) firstRow fields ++
        String.join ((firstRow :: rest).map
          (sqlInsertLine (if tn = "" then "mock_data" else tn) fields))) ∧
    sqlColumnDefs firstRow fields =
      String.join (fields.enum.map (fun p =>
        "  " ++ p.2 ++ " " ++ inferSQLType (rowGet firstRow p.2) ++
          (if p.1 < fields.length - 1 then "," else "") ++ "\n")) ∧
    ToSQL [[(("a" : String), Value.null)], [(("a" : String), Value.num 5)]] ["a"] "t" =
      .ok ("-- Generated data\n-- Table: t\n\nCREATE TABLE IF NOT EXISTS t (\n  a TEXT\n);\n\nINSERT INTO t (a) VALUES (NULL);\nINSERT INTO t (a) VALUES (5);\n") := by
  refine ⟨rfl, fun q => rfl, fun b => rfl, fun s => rfl, fun s => rfl, ?_, rfl, rfl, rfl⟩
  intro r f h
  simp only [rowGet, h]
  rfl

/-- C5 witness: an absent cell infers `TEXT`, and the concrete
null-then-numeric dataset declares its column `TEXT`. -/
theorem sql_create_table_types_witness :
    (List.lookup "x" ([] : Row) = none ∧ inferSQLType (rowGet [] "x") = "TEXT") ∧
    ToSQL [[(("a" : String), Value.null)], [(("a" : String), Value.num 5)]] ["a"] "t" =
      .ok ("-- Generated data\n-- Table: t\n\nCREATE TABLE IF NOT EXISTS t (\n  a TEXT\n);\n\nINSERT INTO t (a) VALUES (NULL);\nINSERT INTO t (a) VALUES (5);\n") :=
  ⟨⟨rfl, (sql_create_table_types [] [] [] "").2.2.2.2.2.1 [] "x" rfl⟩,
    (sql_create_table_types [] [] [] "").2.2.2.2.2.2.2.2⟩

/-- C6.  SQL value formatting: null and absent cells render as the
unquoted keyword `NULL`; a string is single-quoted with every single
quote doubled and no other change (a quote-free string passes verbatim,
and `it's` renders as `'it''s'`); an integral numeric is an unquoted
integer literal (no quote character anywhere) and a fractional numeric
the unquoted decimal rendering; a boolean is the unquoted keyword `TRUE`
or `FALSE`; any other value is its string rendering wrapped in single
quotes with no internal escaping. -/
theorem formatSQLValue_rule :
    formatSQLValue .null = "NULL" ∧
    (∀ r f, List.lookup f r = none → formatSQLValue (rowGet r f) = "NULL") ∧
    (∀ s, formatSQLValue (.str s) = "'" ++ doubleChar singleQuote s ++ "'") ∧
    (∀ s, (∀ c ∈ s.data, c ≠ singleQuote) →
      formatSQLValue (.str s) = "'" ++ s ++ "'") ∧
    formatSQLValue (.str "it's") = "'it''s'" ∧
    (∀ q : Rat, q.den = 1 →
      formatSQLValue (.num q) = toString q.num ∧
      (∀ c ∈ (formatSQLValue (.num q)).data, c ≠ singleQuote)) ∧
    (∀ q : Rat, q.den ≠ 1 → formatSQLValue (.num q) = fracString q) ∧
    formatSQLValue (.bool true) = "TRUE" ∧
    formatSQLValue (.bool false) = "FALSE" ∧
    (∀ s, formatSQLValue (.other s) = "'" ++ s ++ "'") := by
  refine ⟨rfl, ?_, fun s => rfl, ?_, rfl, ?_, ?_, rfl, rfl, fun s => rfl⟩
  · intro r f h
    simp only [rowGet, h]
    rfl
  · intro s hs
    have : doubleChar singleQuote s = s := by
      unfold doubleChar
      have : ∀ l : List Char, (∀ c ∈ l, c ≠ singleQuote) →
          l.foldr (fun d acc => if d = singleQuote then d :: d :: acc else d :: acc) [] = l := by
        intro l
        induction l with
        | nil => intro _; rfl
        | cons c cs ih =>
            intro hl
            simp only [List.foldr_cons]
            rw [if_neg (hl c (List.mem_cons_self c cs)), ih (fun d hd => hl d (List.mem_cons_of_mem c hd))]
      rw [this s.data hs]
    rw [formatSQLValue, this]
  · intro q h
    constructor
    · simp [formatSQLValue, h]
    · simp only [formatSQLValue, if_pos h]
      exact intToString_no_quote q.num
  · intro q h
    simp [formatSQLValue, h]

/-- C6 witness: `NULL`, quote doubling on `it's`, verbatim quote-free
string, and the unquoted integral `42`. -/
theorem formatSQLValue_rule_witness :
    (List.lookup "x" ([] : Row) = none ∧ formatSQLValue (rowGet [] "x") = "NULL") ∧
    ((∀ c ∈ "hello".data, c ≠ singleQuote) ∧ formatSQLValue (.str "hello") = "'hello'") ∧
    ((42 : Rat).den = 1 ∧ formatSQLValue (.num 42) = "42") := by
  refine ⟨⟨rfl, ?_⟩, ⟨by decide, ?_⟩, ⟨by decide, ?_⟩⟩
  · exact formatSQLValue_rule.2.1 [] "x" rfl
  · exact formatSQLValue_rule.2.2.2.1 "hello" (by decide)
  · exact (formatSQLValue_rule.2.2.2.2.2.1 42 (by decide)).1.trans rfl

/-- An `INSERT` line whose table name, field names and rendered values
contain no newline contains exactly one newline (its terminator): it is
one line. -/
theorem sqlInsertLine_one_line (tn : String) (fields : List String) (r : Row)
    (h1 : ∀ c ∈ tn.data, c ≠ '\n')
    (h2 : ∀ f ∈ fields, ∀ c ∈ f.data, c ≠ '\n')
    (h3 : ∀ f ∈ fields, ∀ c ∈ (formatSQLValue (rowGet r f)).data, c ≠ '\n') :
    (sqlInsertLine tn fields r).data.count '\n' = 1 := by
  have ctn : tn.data.count '\n' = 0 :=
    List.count_eq_zero.mpr (fun h => h1 _ h rfl)
  have cI1 : (String.intercalate ", " fields).data.count '\n' = 0 := by
    refine List.count_eq_zero.mpr (fun hmem => ?_)
    rcases intercalate_chars _ _ _ hmem with h | ⟨x, hx, hcx⟩
    · exact absurd h (by decide)
    · exact h2 x hx _ hcx rfl
  have cI2 : (String.intercalate ", "
      (fields.map (fun f => formatSQLValue (rowGet r f)))).data.count '\n' = 0 := by
    refine List.count_eq_zero.mpr (fun hmem => ?_)
    rcases intercalate_chars _ _ _ hmem with h | ⟨x, hx, hcx⟩
    · exact absurd h (by decide)
    · rcases List.mem_map.mp hx with ⟨f, hf, hfx⟩
      exact h3 f hf _ (hfx ▸ hcx) rfl
  have e : (sqlInsertLine tn fields r).data =
      "INSERT INTO ".data ++ tn.data ++ " (".data ++
      (String.intercalate ", " fields).data ++ ") VALUES (".data ++
      (String.intercalate ", " (fields.map (fun f => formatSQLValue (rowGet r f)))).data ++
      ");\n".data := rfl
  rw [e]
  simp only [List.count_append, ctn, cI1, cI2]
  decide

/-- C7.  For every non-empty rows sequence the SQL export emits, after the
create section, exactly one `INSERT INTO <table> (<fields>) VALUES
(<formatted values>);` statement per row, in rows' order; each statement
is one line (one newline, its terminator) whenever no name or value
contains a newline; and an empty `tableName` makes every emitted
statement use the default name `mock_data`. -/
theorem sql_insert_per_row (rows : List Row) (fields : List String) (tn : String)
    (r₀ : Row) (rs : List Row) (hrows : rows = r₀ :: rs) :
    ToSQL rows fields tn =
      .ok (sqlCreateSection (if tn = "" then "mock_data" else tn) r₀ fields ++
        String.join (rows.map (fun r =>
          "INSERT INTO " ++ (if tn = "" then "mock_data" else tn) ++ " (" ++
          String.intercalate ", " fields ++ ") VALUES (" ++
          String.intercalate ", " (fields.map (fun f => formatSQLValue (rowGet r f))) ++
          ");\n"))) ∧
    ToSQL rows fields "" = ToSQL rows fields "mock_data" ∧
    (∀ r, (∀ c ∈ (if tn = "" then "mock_data" else tn).data, c ≠ '\n') →
      (∀ f ∈ fields, ∀ c ∈ f.data, c ≠ '\n') →
      (∀ f ∈ fields, ∀ c ∈ (formatSQLValue (rowGet r f)).data, c ≠ '\n') →
      (sqlInsertLine (if tn = "" then "mock_data" else tn) fields r).data.count '\n' = 1) := by
  subst hrows
  refine ⟨rfl, rfl, ?_⟩
  intro r ha hb hc
  exact sqlInsertLine_one_line _ fields r ha hb hc

/-- C7 witness: with an empty table name the emitted bytes equal those for
`mock_data`, and the concrete insert line is a single line. -/
theorem sql_insert_per_row_witness :
    ToSQL [[(("id" : String), Value.num 1)]] ["id"] "" =
      ToSQL [[(("id" : String), Value.num 1)]] ["id"] "mock_data" ∧
    (sqlInsertLine "mock_data" ["id"] [(("id" : String), Value.num 1)]).data.count '\n' = 1 ∧
    ToSQL [[(("id" : String), Value.num 1)]] ["id"] "" =
      .ok ("-- Generated data\n-- Table: mock_data\n\nCREATE TABLE IF NOT EXISTS mock_data (\n  id NUMERIC\n);\n\nINSERT INTO mock_data (id) VALUES (1);\n") := by
  have h := sql_insert_per_row [[(("id" : String), Value.num 1)]] ["id"] ""
    [(("id" : String), Value.num 1)] [] rfl
  exact ⟨h.2.1, h.2.2 _ (by decide) (by decide) (by decide), h.1.trans rfl⟩

/-- C8.  For every non-empty rows sequence, the Markdown export emits a
header row listing the fields in order, each cell padded by one leading
and one trailing space, cells separated by vertical bars and the line
bounded by vertical bars; then a separator row with one dash-run segment
per field (`--------`, an all-dash run of length 8 ≥ 3, a syntactically
valid table separator segment); then one data row per entry of `rows` in
order in the same shape as the header, every cell rendered by the shared
value-formatting rule. -/
theorem markdown_structure (rows : List Row) (fields : List String)
    (r₀ : Row) (rs : List Row) (hrows : rows = r₀ :: rs) :
    ToMarkdownTable rows fields =
      .ok (mdHeaderRow fields ++ mdSeparatorRow fields ++
        String.join (rows.map (mdDataRow fields))) ∧
    mdHeaderRow fields = "| " ++ String.intercalate " | " fields ++ " |\n" ∧
    mdSeparatorRow fields =
      "|" ++ String.join (List.replicate fields.length "--------|") ++ "\n" ∧
    (∀ r, mdDataRow fields r = "| " ++ String.intercalate " | "
      (fields.map (fun f => formatValue (rowGet r f))) ++ " |\n") ∧
    (∀ c ∈ ("--------" : String).data, c = '-') ∧ 3 ≤ ("--------" : String).length := by
  subst hrows
  refine ⟨rfl, rfl, ?_, fun r => rfl, by decide, by decide⟩
  unfold mdSeparatorRow
  rw [List.map_const']

/-- C8 witness: the spec's concrete example — header `| id | name | age |`,
a separator with one segment per field, and one data row per input row in
order. -/
theorem markdown_structure_witness :
    ToMarkdownTable
      [[(("id" : String), Value.num 1), ("name", Value.str "John"), ("age", Value.num 30)],
       [(("id" : String), Value.num 2), ("name", Value.str "Jane"), ("age", Value.num 25)]]
      ["id", "name", "age"] =
      .ok "| id | name | age |\n|--------|--------|--------|\n| 1 | John | 30 |\n| 2 | Jane | 25 |\n" := by
  have h := markdown_structure
    [[(("id" : String), Value.num 1), ("name", Value.str "John"), ("age", Value.num 30)],
     [(("id" : String), Value.num 2), ("name", Value.str "Jane"), ("age", Value.num 25)]]
    ["id", "name", "age"]
    [(("id" : String), Value.num 1), ("name", Value.str "John"), ("age", Value.num 30)]
    [[(("id" : String), Value.num 2), ("name", Value.str "Jane"), ("age", Value.num 25)]]
    rfl
  exact h.1.trans rfl

/-- C9 counterexample.  The claim fails for the structured-data (JSON)
export: a row lacking the key `f` marshals as an object without that
member, while the same row with `f → null` marshals with an explicit
`"f": null` member, so the two outputs differ. -/
theorem json_missing_vs_null_differ :
    ToJSON [[(("f" : String), Value.null)]] ["f"] ≠ ToJSON [([] : Row)] ["f"] := by
  intro h
  simp only [ToJSON, encodeRow, sortByKey, insertByKey, encodeValue, List.map] at h
  simp at h

/-- C9 (amended).  In the delimited-text (CSV), tabular-markup (Markdown)
and SQL-insert export formats, rendering a row that lacks the key `f`
produces exactly the same output as rendering the same row with `f`
mapped to null (whatever rows surround it); the structured-data export,
which serializes rows verbatim, distinguishes the two (see the
counterexample). -/
theorem missing_key_as_null (pre post : List Row) (r : Row) (f : String)
    (fields : List String) (tn : String) (h : List.lookup f r = none) :
    ToCSV (pre ++ ((f, Value.null) :: r) :: post) fields =
      ToCSV (pre ++ r :: post) fields ∧
    ToMarkdownTable (pre ++ ((f, Value.null) :: r) :: post) fields =
      ToMarkdownTable (pre ++ r :: post) fields ∧
    ToSQL (pre ++ ((f, Value.null) :: r) :: post) fields tn =
      ToSQL (pre ++ r :: post) fields tn := by
  have hall : List.Forall₂ rowEquiv (pre ++ ((f, Value.null) :: r) :: post)
      (pre ++ r :: post) :=
    List.rel_append (forall₂_rowEquiv_refl pre)
      (List.Forall₂.cons (rowGet_cons_null r f h) (forall₂_rowEquiv_refl post))
  exact ⟨ToCSV_congr fields hall, ToMarkdownTable_congr fields hall,
    ToSQL_congr fields tn hall⟩

/-- C9 witness: a concrete row lacking `name` renders exactly as the row
with `name → null` in the CSV, Markdown and SQL formats. -/
theorem missing_key_as_null_witness :
    List.lookup "name" [(("id" : String), Value.num 1)] = none ∧
    ToCSV [[("name", Value.null), (("id" : String), Value.num 1)]] ["id", "name"] =
      ToCSV [[(("id" : String), Value.num 1)]] ["id", "name"] ∧
    ToMarkdownTable [[("name", Value.null), (("id" : String), Value.num 1)]] ["id", "name"] =
      ToMarkdownTable [[(("id" : String), Value.num 1)]] ["id", "name"] ∧
    ToSQL [[("name", Value.null), (("id" : String), Value.num 1)]] ["id", "name"] "t" =
      ToSQL [[(("id" : String), Value.num 1)]] ["id", "name"] "t" :=
  ⟨rfl, missing_key_as_null [] [] [(("id" : String), Value.num 1)] "name"
    ["id", "name"] "t" rfl⟩

/-- C10.  The Markdown export inserts formatted cell values verbatim with
no escaping of the vertical bar or of line breaks: a cell `x | y` over
one field yields a data line holding 3 vertical bars — two cells — against
the header's 2 bars (one cell per field), and a cell containing a
newline makes the data row span two physical lines; the CSV export, by
contrast, quotes the newline-bearing value (`"a\nb"`), while Markdown
passes both values through `formatValue` unchanged. -/
theorem markdown_no_escaping :
    ToMarkdownTable [[(("a" : String), Value.str "x | y")]] ["a"] =
      .ok ("| a |\n|--------|\n" ++ "| x | y |" ++ "\n") ∧
    ("| x | y |" : String).data.count '|' = 3 ∧
    ("| a |" : String).data.count '|' = 2 ∧
    ToMarkdownTable [[(("a" : String), Value.str "a\nb")]] ["a"] =
      .ok "| a |\n|--------|\n| a\nb |\n" ∧
    ("| a\nb |\n" : String).data.count '\n' = 2 ∧
    ToCSV [[(("a" : String), Value.str "a\nb")]] ["a"] =
      .ok ("a\n" ++ "\"a\nb\"" ++ "\n") ∧
    csvField "a\nb" = "\"a\nb\"" ∧
    formatValue (Value.str "x | y") = "x | y" ∧
    formatValue (Value.str "a\nb") = "a\nb" :=
  ⟨rfl, by decide, by decide, rfl, by decide, rfl, rfl, rfl, rfl⟩
